import Mathlib

/-!
A shallow embedding of the Loki boot-image reader core
(`libmbbootimg/src/format/loki_reader.cpp` of DualBootPatcher), together with
theorems about its behaviour.  The seekable byte stream is modelled as a
length plus a byte function; the collaborating Android-header locator and the
device-family predicate `is_lg_ramdisk_address` (both outside the embedded
file) are taken as parameters of the functions that consult them, and the
byte content of the `LOKI_SHELLCODE` pattern (defined outside the embedded
file) is likewise a parameter.  Machine arithmetic is `Nat` with explicit
`% 2 ^ 32` at every point where the source narrows to a 32-bit type, and an
explicit two's-complement conversion where the source narrows to `int32_t`.
-/

/-- Return codes of the reader framework (`reader_p.h`):
`OK = 0`, `WARN = -1`, `FAILED = -2`, `FATAL = -3`, `UNSUPPORTED = -4`. -/
inductive RetCode where
  | ok
  | warn
  | failed
  | fatal
  | unsupported
  deriving DecidableEq, Repr

/-- The integer value of a return code. -/
def RetCode.toInt : RetCode → Int
  | .ok => 0
  | .warn => -1
  | .failed => -2
  | .fatal => -3
  | .unsupported => -4

/-- Kind of error constant passed to `reader_set_error`:
`ERROR_FILE_FORMAT`, `ERROR_INTERNAL_ERROR`, or a code coming from the
underlying file (modelled as `ioError`). -/
inductive ErrKind where
  | fileFormat
  | internalError
  | ioError
  deriving DecidableEq, Repr

/-- An error outcome: the non-`RET_OK` return code together with the error
constant and message recorded via `reader_set_error`. -/
structure Err where
  code : RetCode
  kind : ErrKind
  msg : String
  deriving DecidableEq, Repr

/-- Result of a reader routine: the value produced on `RET_OK`, or the error
it recorded. -/
inductive Res (α : Type) where
  | ok : α → Res α
  | err : Err → Res α
  deriving DecidableEq, Repr

/-- A seekable byte stream: a length and the byte at each position.  Bytes
are reduced mod 256 on access. -/
structure FileData where
  size : Nat
  byteAt : Nat → Nat

/-- The byte stored at position `i`. -/
def FileData.byte (f : FileData) (i : Nat) : Nat := f.byteAt i % 256

/-- Read one byte; `none` at or past end of file. -/
def readByte (f : FileData) (i : Nat) : Option Nat :=
  if i < f.size then some (f.byte i) else none

/-- The 32-bit little-endian integer assembled from the four bytes at `i`
(no bounds check; used only after a length check, like reading into a C
struct already known to fit). -/
def le32At (f : FileData) (i : Nat) : Nat :=
  f.byte i + 2 ^ 8 * f.byte (i + 1) + 2 ^ 16 * f.byte (i + 2) + 2 ^ 24 * f.byte (i + 3)

/-- `file_read_fully` of a 4-byte little-endian integer: `none` when the read
comes up short of four bytes. -/
def readLe32 (f : FileData) (i : Nat) : Option Nat :=
  if i + 4 ≤ f.size then some (le32At f i) else none

/-- Does `pat` occur in `f` starting at absolute offset `i`? -/
def matchAt (f : FileData) (pat : List Nat) (i : Nat) : Bool :=
  decide (i + pat.length ≤ f.size) &&
    (List.range pat.length).all fun j => f.byte (i + j) == pat.getD j 0

/-- All offsets at or after `start` at which `pat` occurs, in increasing
order: the match offsets that `mb::file_search` reports to its callback
(a negative `start` argument in the source means offset 0). -/
def searchOffsets (f : FileData) (pat : List Nat) (start : Nat) : List Nat :=
  (List.range f.size).filter fun i => decide (start ≤ i) && matchAt f pat i

/-- First match offset at or after `start`, as delivered by `file_search`
with `max_matches = 1`. -/
def firstMatchAtOrAfter (f : FileData) (pat : List Nat) (start : Nat) : Option Nat :=
  (searchOffsets f pat start).head?

/-- `LOKI_MAGIC_OFFSET` (`loki_defs.h`). -/
def LOKI_MAGIC_OFFSET : Nat := 0x400

/-- `LOKI_MAGIC_SIZE` (`loki_defs.h`). -/
def LOKI_MAGIC_SIZE : Nat := 4

/-- The ASCII bytes of `LOKI_MAGIC`, `"LOKI"`. -/
def LOKI_MAGIC : List Nat := [0x4c, 0x4f, 0x4b, 0x49]

/-- `LOKI_SHELLCODE_SIZE` (64, per the spec's bit-exact constants). -/
def LOKI_SHELLCODE_SIZE : Nat := 64

/-- Modelled from the spec: `android::BOOT_MAGIC_SIZE`, the size of the
8-byte `"ANDROID!"` magic (`android_defs.h` is not part of the embedded
file). -/
def BOOT_MAGIC_SIZE : Nat := 8

/-- Modelled from the spec: `android::DEFAULT_KERNEL_OFFSET` (jflte default
`0x00008000`; `android_defs.h` is not part of the embedded file). -/
def DEFAULT_KERNEL_OFFSET : Nat := 0x00008000

/-- Modelled from the spec: `android::DEFAULT_TAGS_OFFSET` (jflte default
`0x00000100`; `android_defs.h` is not part of the embedded file). -/
def DEFAULT_TAGS_OFFSET : Nat := 0x00000100

/-- Modelled from the spec: `sizeof(LokiHeader)` from the spec's field table,
`4 (magic) + 4 (recovery) + 128 (build) + 3 * 4 = 148` bytes
(`loki_defs.h` is not part of the embedded file). -/
def LOKI_HEADER_SIZE : Nat := 148

/-- Conversion of an unsigned value to `int32_t` (two's-complement wrap), as
in the declaration `int32_t aboot_size` receiving `hdr.page_size`. -/
def toInt32 (n : Nat) : Int :=
  if n % 2 ^ 32 < 2 ^ 31 then ((n % 2 ^ 32 : Nat) : Int)
  else ((n % 2 ^ 32 : Nat) : Int) - 2 ^ 32

/-- Modelled from the spec: `align_page_size` (`align_p.h` is not part of the
embedded file) returns the padding that brings `x` up to the next multiple of
the power-of-two page size, the standard `(x + page - 1) & ~(page - 1)` minus
`x`, i.e. `(page - x % page) % page`. -/
def align_page_size (x page : Nat) : Nat := (page - x % page) % page

/-- The fields of `android::AndroidHeader` that the Loki reader consults.
All are 32-bit in the source; the `name`, `cmdline`, `kernel_size`,
`ramdisk_size`, `second_size` and `unused` fields are never read by the parts
of the reader under study and are omitted. -/
structure AndroidHeader where
  kernel_addr : Nat
  ramdisk_addr : Nat
  second_addr : Nat
  tags_addr : Nat
  page_size : Nat
  dt_size : Nat
  deriving DecidableEq, Repr

/-- The fields of `LokiHeader` after `loki_fix_header_byte_order`.  The
128-byte `build` string is recorded but never read by the reader and is
omitted; `recovery` is kept so that theorems can vary a field the reader
ignores. -/
structure LokiHeader where
  recovery : Nat
  orig_kernel_size : Nat
  orig_ramdisk_size : Nat
  ramdisk_addr : Nat
  deriving DecidableEq, Repr

/-- The numeric fields installed into the output `Header` by the
reconstructors (`set_page_size`, `set_kernel_address`, `set_ramdisk_address`,
`set_secondboot_address`, `set_kernel_tags_address`).  The board name and
command line copied from the Android header are not consulted by any claim
and are omitted; the setters always succeed for these fields, which belong to
both `OLD_SUPPORTED_FIELDS` and `NEW_SUPPORTED_FIELDS`. -/
structure Header where
  page_size : Nat
  kernel_addr : Nat
  ramdisk_addr : Nat
  second_addr : Nat
  tags_addr : Nat
  deriving DecidableEq, Repr

/-- `loki_find_ramdisk_address`: shellcode scan when
`loki_hdr.ramdisk_addr != 0`, jflte fallback arithmetic otherwise.  `sc` is
the 64-byte `LOKI_SHELLCODE` pattern; the search matches only its first
`LOKI_SHELLCODE_SIZE - 9` bytes, with `max_matches = 1` and a callback that
overwrites an offset initialised to 0. -/
def loki_find_ramdisk_address (f : FileData) (sc : List Nat)
    (hdr : AndroidHeader) (loki_hdr : LokiHeader) : Res Nat :=
  if loki_hdr.ramdisk_addr ≠ 0 then
    let offset := (firstMatchAtOrAfter f (sc.take (LOKI_SHELLCODE_SIZE - 9)) 0).getD 0
    if offset = 0 then
      .err ⟨.warn, .fileFormat, "Loki shellcode not found"⟩
    else
      match readLe32 f (offset + (LOKI_SHELLCODE_SIZE - 5)) with
      | none => .err ⟨.warn, .fileFormat, "Unexpected EOF when reading ramdisk address"⟩
      | some a => .ok a
  else
    if hdr.kernel_addr > 2 ^ 32 - 1 - 0x01ff8000 then
      .err ⟨.warn, .fileFormat, "Invalid kernel address"⟩
    else
      .ok ((hdr.kernel_addr + 0x01ff8000) % 2 ^ 32)

/-- The three gzip magic bytes searched for by `loki_old_find_gzip_offset`. -/
def GZIP_DEFLATE_MAGIC : List Nat := [0x1f, 0x8b, 0x08]

/-- The `SearchResult` accumulator of `loki_old_find_gzip_offset`. -/
structure GzipSearchState where
  have_flag0 : Bool
  have_flag8 : Bool
  flag0_offset : Nat
  flag8_offset : Nat
  deriving DecidableEq, Repr

/-- The zero-initialised `SearchResult result = {}`. -/
def initGzipState : GzipSearchState := ⟨false, false, 0, 0⟩

/-- The callback of `loki_old_find_gzip_offset`, run over the successive
match offsets: stop once both flavours are recorded, stop on EOF when the
flags byte is missing, otherwise record the first match of each flavour. -/
def gzip_scan (f : FileData) : List Nat → GzipSearchState → GzipSearchState
  | [], r => r
  | o :: rest, r =>
    if r.have_flag0 && r.have_flag8 then r
    else
      match readByte f (o + 3) with
      | none => r
      | some flags =>
        if !r.have_flag0 && flags == 0x00 then
          gzip_scan f rest ⟨true, r.have_flag8, o, r.flag8_offset⟩
        else if !r.have_flag8 && flags == 0x08 then
          gzip_scan f rest ⟨r.have_flag0, true, r.flag0_offset, o⟩
        else
          gzip_scan f rest r

/-- `loki_old_find_gzip_offset`: scan for gzip deflate headers at or after
`start_offset`, preferring a flags byte of `0x08` over `0x00`. -/
def loki_old_find_gzip_offset (f : FileData) (start_offset : Nat) : Res Nat :=
  let r := gzip_scan f (searchOffsets f GZIP_DEFLATE_MAGIC start_offset) initGzipState
  if r.have_flag8 then .ok r.flag8_offset
  else if r.have_flag0 then .ok r.flag0_offset
  else .err ⟨.warn, .fileFormat, "No gzip headers found"⟩

/-- `loki_old_find_ramdisk_size`: the tail stash reserved for aboot is
`page_size` for the LG family, `0x200` otherwise (held in an `int32_t`);
seek that far back from end of file and subtract, assigning through a
`uint32_t` out-parameter.  `is_lg` is the `is_lg_ramdisk_address` predicate,
which lives outside the embedded file. -/
def loki_old_find_ramdisk_size (f : FileData) (is_lg : Nat → Bool)
    (hdr : AndroidHeader) (ramdisk_offset : Nat) : Res Nat :=
  let aboot_size : Int := toInt32 (if is_lg hdr.ramdisk_addr then hdr.page_size else 0x200)
  let pos : Int := (f.size : Int) - aboot_size
  if pos < 0 then
    .err ⟨.failed, .ioError, "Failed to seek to end of file"⟩
  else
    let aboot_offset := pos.toNat
    if ramdisk_offset > aboot_offset then
      .err ⟨.failed, .internalError, "Ramdisk offset greater than aboot offset"⟩
    else
      .ok ((aboot_offset - ramdisk_offset) % 2 ^ 32)

/-- `find_linux_kernel_size`: read the 4-byte little-endian size field at
`kernel_offset + 0x2c` (the ARM zImage header). -/
def find_linux_kernel_size (f : FileData) (kernel_offset : Nat) : Res Nat :=
  match readLe32 f (kernel_offset + 0x2c) with
  | none => .err ⟨.warn, .ioError, "Unexpected EOF when reading kernel header"⟩
  | some v => .ok v

/-- Output of `loki_read_old_header`: the populated header and the four
out-parameters. -/
structure OldHeaderOut where
  header : Header
  kernel_offset : Nat
  kernel_size : Nat
  ramdisk_offset : Nat
  ramdisk_size : Nat
  deriving DecidableEq, Repr

/-- Output of `loki_read_new_header`: the populated header and the five
out-parameters. -/
structure NewHeaderOut where
  header : Header
  kernel_offset : Nat
  kernel_size : Nat
  ramdisk_offset : Nat
  ramdisk_size : Nat
  dt_offset : Nat
  deriving DecidableEq, Repr

/-- `loki_read_old_header`.  The kernel tags address is synthesised from the
jflte defaults in `uint32_t` arithmetic; the gzip search starts at
`hdr.page_size + kernel_size` (a wrapping `uint32_t` sum) plus the 64-bit
padding of `kernel_size`, narrowed back to the `uint32_t` `start_offset`
parameter; the ramdisk offset passed on to `loki_old_find_ramdisk_size` is
likewise narrowed to its `uint32_t` parameter.  The final `pos` accumulator
is `uint64_t` and, as the source notes, cannot overflow; the kernel offset is
`page_size` and the ramdisk offset is the gzip offset. -/
def loki_read_old_header (f : FileData) (sc : List Nat) (is_lg : Nat → Bool)
    (hdr : AndroidHeader) (loki_hdr : LokiHeader) : Res OldHeaderOut :=
  if hdr.page_size = 0 then
    .err ⟨.warn, .fileFormat, "Page size cannot be 0"⟩
  else
    let tags_addr := (hdr.kernel_addr + (2 ^ 32 - DEFAULT_KERNEL_OFFSET)
        + DEFAULT_TAGS_OFFSET) % 2 ^ 32
    match find_linux_kernel_size f hdr.page_size with
    | .err e => .err e
    | .ok kernel_size =>
      let start := ((hdr.page_size + kernel_size) % 2 ^ 32
          + align_page_size kernel_size hdr.page_size) % 2 ^ 32
      match loki_old_find_gzip_offset f start with
      | .err e => .err e
      | .ok gzip_offset =>
        match loki_old_find_ramdisk_size f is_lg hdr (gzip_offset % 2 ^ 32) with
        | .err e => .err e
        | .ok ramdisk_size =>
          match loki_find_ramdisk_address f sc hdr loki_hdr with
          | .err e => .err e
          | .ok ramdisk_addr =>
            .ok { header := { page_size := hdr.page_size
                            , kernel_addr := hdr.kernel_addr
                            , ramdisk_addr := ramdisk_addr
                            , second_addr := hdr.second_addr
                            , tags_addr := tags_addr }
                , kernel_offset := hdr.page_size
                , kernel_size := kernel_size
                , ramdisk_offset := gzip_offset
                , ramdisk_size := ramdisk_size }

/-- `loki_read_new_header`.  Sizes come from the Loki header; the segment
offsets accumulate in `uint64_t` (which, as the source notes, cannot
overflow): kernel after the header page, ramdisk after the page-aligned
kernel, and the device tree after the page-aligned ramdisk plus a fake aboot
block of `page_size` (LG) or `0x200` when `dt_size != 0`. -/
def loki_read_new_header (f : FileData) (sc : List Nat) (is_lg : Nat → Bool)
    (hdr : AndroidHeader) (loki_hdr : LokiHeader) : Res NewHeaderOut :=
  if hdr.page_size = 0 then
    .err ⟨.warn, .fileFormat, "Page size cannot be 0"⟩
  else
    let fake_size := if is_lg hdr.ramdisk_addr then hdr.page_size else 0x200
    match loki_find_ramdisk_address f sc hdr loki_hdr with
    | .err e => .err e
    | .ok ramdisk_addr =>
      let pos1 := hdr.page_size
      let pos2 := pos1 + loki_hdr.orig_kernel_size
      let pos3 := pos2 + align_page_size pos2 hdr.page_size
      let pos4 := pos3 + loki_hdr.orig_ramdisk_size
      let pos5 := pos4 + align_page_size pos4 hdr.page_size
      let pos6 := if hdr.dt_size ≠ 0 then pos5 + fake_size else pos5
      .ok { header := { page_size := hdr.page_size
                      , kernel_addr := hdr.kernel_addr
                      , ramdisk_addr := ramdisk_addr
                      , second_addr := hdr.second_addr
                      , tags_addr := hdr.tags_addr }
          , kernel_offset := pos1
          , kernel_size := loki_hdr.orig_kernel_size
          , ramdisk_offset := pos3
          , ramdisk_size := loki_hdr.orig_ramdisk_size
          , dt_offset := pos6 }

/-- `find_loki_header`: seek to `LOKI_MAGIC_OFFSET`, read `sizeof(LokiHeader)`
bytes (soft failure when the file is too small), check the magic, and decode
the little-endian integer fields at their offsets within the struct. -/
def find_loki_header (f : FileData) : Res (LokiHeader × Nat) :=
  if LOKI_MAGIC_OFFSET + LOKI_HEADER_SIZE > f.size then
    .err ⟨.warn, .fileFormat, "Too small to be Loki image"⟩
  else if matchAt f LOKI_MAGIC LOKI_MAGIC_OFFSET = false then
    .err ⟨.warn, .fileFormat, "Invalid loki magic"⟩
  else
    .ok ( { recovery := le32At f (LOKI_MAGIC_OFFSET + 4)
          , orig_kernel_size := le32At f (LOKI_MAGIC_OFFSET + 136)
          , orig_ramdisk_size := le32At f (LOKI_MAGIC_OFFSET + 140)
          , ramdisk_addr := le32At f (LOKI_MAGIC_OFFSET + 144) }
        , LOKI_MAGIC_OFFSET )

/-- Segment entry types used by the Loki reader. -/
inductive EntryType where
  | kernel
  | ramdisk
  | deviceTree
  deriving DecidableEq, Repr

/-- One entry of the segment table: `(type, offset, size)`. -/
structure SegEntry where
  etype : EntryType
  offset : Nat
  size : Nat
  deriving DecidableEq, Repr

/-- `LokiReaderCtx`: the per-image reader state. -/
structure LokiReaderCtx where
  hdr : AndroidHeader
  loki_hdr : LokiHeader
  header_offset : Nat
  loki_offset : Nat
  have_header_offset : Bool
  have_loki_offset : Bool
  entries : List SegEntry
  deriving DecidableEq, Repr

/-- A freshly allocated, value-initialised `LokiReaderCtx`. -/
def initialLokiCtx : LokiReaderCtx :=
  { hdr := ⟨0, 0, 0, 0, 0, 0⟩
  , loki_hdr := ⟨0, 0, 0, 0⟩
  , header_offset := 0
  , loki_offset := 0
  , have_header_offset := false
  , have_loki_offset := false
  , entries := [] }

/-- `loki_reader_bid`.  The outcome of the external `find_android_header`
collaborator is the parameter `fah` (consulted only when the Loki header was
found, matching the control flow).  Returns the bid (or negative return code)
and the updated context. -/
def loki_reader_bid (f : FileData) (fah : Res (AndroidHeader × Nat))
    (ctx : LokiReaderCtx) (best_bid : Int) : Int × LokiReaderCtx :=
  if best_bid ≥ (((BOOT_MAGIC_SIZE + LOKI_MAGIC_SIZE) * 8 : Nat) : Int) then
    (RetCode.warn.toInt, ctx)
  else
    match find_loki_header f with
    | .ok (lh, off) =>
      let ctx1 := { ctx with loki_hdr := lh, loki_offset := off, have_loki_offset := true }
      match fah with
      | .ok (ah, hoff) =>
        let ctx2 := { ctx1 with hdr := ah, header_offset := hoff, have_header_offset := true }
        ((((LOKI_MAGIC_SIZE * 8) + BOOT_MAGIC_SIZE * 8 : Nat) : Int), ctx2)
      | .err e => if e.code = .warn then (0, ctx1) else (e.code.toInt, ctx1)
    | .err e => if e.code = .warn then (0, ctx) else (e.code.toInt, ctx)

/-- Convert an old-reconstructor output to the shape shared by both branches
of `loki_reader_read_header`, whose local `uint64_t dt_offset = 0` is left
untouched by the old branch. -/
def oldAsCommon (r : Res OldHeaderOut) : Res NewHeaderOut :=
  match r with
  | .err e => .err e
  | .ok o => .ok ⟨o.header, o.kernel_offset, o.kernel_size, o.ramdisk_offset, o.ramdisk_size, 0⟩

/-- The tail of `loki_reader_read_header`: clear the segment table and add
the kernel, ramdisk and (when `dt_size > 0` and its offset is nonzero) device
tree entries. -/
def lokiSegmentEntries (hdr : AndroidHeader) (b : NewHeaderOut) : List SegEntry :=
  [ ⟨.kernel, b.kernel_offset, b.kernel_size⟩
  , ⟨.ramdisk, b.ramdisk_offset, b.ramdisk_size⟩ ]
  ++ (if hdr.dt_size > 0 ∧ b.dt_offset ≠ 0 then [⟨.deviceTree, b.dt_offset, hdr.dt_size⟩] else [])

/-- `loki_reader_read_header`.  If no bid ran, synthesise the locator work:
the source stores the offset found by `find_loki_header` into
`ctx->header_offset` (not `ctx->loki_offset`), then lets the Android locator
(outcome parameter `fah`) overwrite it.  Then dispatch on the three Loki
header fields and install the segment entries.  Returns the result and the
updated context. -/
def loki_reader_read_header (f : FileData) (fah : Res (AndroidHeader × Nat))
    (sc : List Nat) (is_lg : Nat → Bool) (ctx : LokiReaderCtx) :
    Res (Header × List SegEntry) × LokiReaderCtx :=
  let step1 : Res LokiReaderCtx :=
    if ctx.have_loki_offset then .ok ctx
    else
      match find_loki_header f with
      | .ok (lh, off) =>
        .ok { ctx with loki_hdr := lh, header_offset := off, have_loki_offset := true }
      | .err e => .err e
  match step1 with
  | .err e => (.err e, ctx)
  | .ok ctx1 =>
    let step2 : Res LokiReaderCtx :=
      if ctx1.have_header_offset then .ok ctx1
      else
        match fah with
        | .ok (ah, hoff) =>
          .ok { ctx1 with hdr := ah, header_offset := hoff, have_header_offset := true }
        | .err e => .err e
    match step2 with
    | .err e => (.err e, ctx1)
    | .ok ctx2 =>
      let branch : Res NewHeaderOut :=
        if ctx2.loki_hdr.orig_kernel_size ≠ 0 ∧ ctx2.loki_hdr.orig_ramdisk_size ≠ 0
            ∧ ctx2.loki_hdr.ramdisk_addr ≠ 0 then
          loki_read_new_header f sc is_lg ctx2.hdr ctx2.loki_hdr
        else
          oldAsCommon (loki_read_old_header f sc is_lg ctx2.hdr ctx2.loki_hdr)
      match branch with
      | .err e => (.err e, ctx2)
      | .ok b =>
        let es := lokiSegmentEntries ctx2.hdr b
        (.ok (b.header, es), { ctx2 with entries := es })

/-- Concrete instance: a minimal well-formed Loki file, `0x494` bytes with
`"LOKI"` at offset `0x400` and zeroes elsewhere. -/
def lokiMagicFile : FileData :=
  ⟨0x494, fun i => if i = 0x400 then 0x4c else if i = 0x401 then 0x4f
    else if i = 0x402 then 0x4b else if i = 0x403 then 0x49 else 0⟩

/-- Concrete instance: a 120-byte stream whose only 55-byte shellcode-prefix
match is at offset 1, with the patched address slot at offset 60. -/
def sampleNewFile : FileData :=
  ⟨120, fun i => if 1 ≤ i ∧ i ≤ 55 then 9 else if i = 60 then 0xaa else 0⟩

/-- Concrete instance: a 64-byte stand-in for the `LOKI_SHELLCODE` bytes. -/
def sampleShellcode : List Nat := List.replicate 64 9

/-- Concrete instance: an Android header with `page_size = 4`. -/
def sampleNewAndroid : AndroidHeader := ⟨0, 0, 0, 0, 4, 0⟩

/-- Concrete instance: a new-style Loki header (all three discriminators
nonzero). -/
def sampleNewLoki : LokiHeader := ⟨0, 2, 3, 5⟩

/-- Concrete instance: the output of `loki_read_new_header` on the sample
new-style image. -/
def sampleNewOut : NewHeaderOut := ⟨⟨4, 0, 0xaa, 0, 0⟩, 4, 2, 8, 3, 12⟩

/-- Concrete instance: a context as left by a successful bid on the sample
new-style image. -/
def sampleDispatchCtx : LokiReaderCtx :=
  { initialLokiCtx with
    hdr := sampleNewAndroid, loki_hdr := sampleNewLoki,
    have_header_offset := true, have_loki_offset := true }

/-- Concrete instance: a 40-byte stream with a gzip header with flags `0x00`
at offset 4 and one with flags `0x08` at offset 20. -/
def sampleGzipFile : FileData :=
  ⟨40, fun i => if i = 4 then 0x1f else if i = 5 then 0x8b else if i = 6 then 0x08
    else if i = 20 then 0x1f else if i = 21 then 0x8b else if i = 22 then 0x08
    else if i = 23 then 0x08 else 0⟩

/-- Concrete instance: a 64-byte old-style image body (LG-family tail, so
the aboot tail equals `page_size = 4`) whose zImage size field at
`page_size + 0x2c = 0x30` reads `0xffffffff` and whose only gzip header
(flags `0x08`) sits at offset 8. -/
def cexOldFile : FileData :=
  ⟨0x40, fun i => if 0x30 ≤ i ∧ i ≤ 0x33 then 0xff else if i = 8 then 0x1f
    else if i = 9 then 0x8b else if i = 10 then 0x08 else if i = 11 then 0x08 else 0⟩

/-- Concrete instance: the Android header for `cexOldFile` (`page_size = 4`). -/
def cexOldAndroid : AndroidHeader := ⟨0, 0, 0, 0, 4, 0⟩

/-- Concrete instance: the output of `loki_read_old_header` on `cexOldFile`. -/
def cexOldOut : OldHeaderOut :=
  ⟨⟨4, 0, 0x01ff8000, 0, 0xffff8100⟩, 4, 0xffffffff, 8, 0x34⟩

/-- Concrete instance: a well-behaved 96-byte old-style image body
(LG-family tail) with zImage size `0x40` and its gzip header (flags `0x08`)
at offset `0x48`. -/
def sampleOldFile : FileData :=
  ⟨0x60, fun i => if i = 0x30 then 0x40 else if i = 0x48 then 0x1f
    else if i = 0x49 then 0x8b else if i = 0x4a then 0x08
    else if i = 0x4b then 0x08 else 0⟩

/-- Concrete instance: the output of `loki_read_old_header` on
`sampleOldFile`. -/
def sampleOldOut : OldHeaderOut :=
  ⟨⟨4, 0, 0x01ff8000, 0, 0xffff8100⟩, 4, 0x40, 0x48, 0x14⟩

/-- The match offsets at or after `start` whose gzip flags byte reads as
`flag`: the candidates of each flavour that the gzip scan can record. -/
def gzipCandidates (f : FileData) (start flag : Nat) : List Nat :=
  (searchOffsets f GZIP_DEFLATE_MAGIC start).filter
    fun o => readByte f (o + 3) == some flag

/-- Membership in the reported match offsets. -/
theorem mem_searchOffsets {f : FileData} {pat : List Nat} {start o : Nat} :
    o ∈ searchOffsets f pat start ↔
      o < f.size ∧ start ≤ o ∧ matchAt f pat o = true := by
  simp [searchOffsets, List.mem_filter, List.mem_range, Bool.and_eq_true,
    decide_eq_true_eq, and_assoc]

/-- The reported match offsets are strictly increasing. -/
theorem searchOffsets_pairwise (f : FileData) (pat : List Nat) (start : Nat) :
    (searchOffsets f pat start).Pairwise (· < ·) :=
  (List.pairwise_lt_range f.size).sublist (List.filter_sublist _)

/-- A match lies entirely inside the file. -/
theorem matchAt_size_le {f : FileData} {pat : List Nat} {i : Nat}
    (h : matchAt f pat i = true) : i + pat.length ≤ f.size := by
  simp only [matchAt, Bool.and_eq_true, decide_eq_true_eq] at h
  exact h.1

/-- `toInt32` is the identity below `2 ^ 31`. -/
theorem toInt32_of_lt {n : Nat} (h : n < 2 ^ 31) : toInt32 n = n := by
  unfold toInt32
  rw [Nat.mod_eq_of_lt (lt_trans h (by norm_num))]
  rw [if_pos h]

/-- C5: when `loki_hdr.ramdisk_addr = 0`, `loki_find_ramdisk_address` returns
`android_hdr.kernel_addr + 0x01ff8000` without 32-bit wrap-around, and it
reports the format-error WARN outcome exactly when
`kernel_addr > UINT32_MAX - 0x01ff8000`. -/
theorem loki_find_ramdisk_address_jflte_fallback (f : FileData) (sc : List Nat)
    (hdr : AndroidHeader) (lh : LokiHeader) (h : lh.ramdisk_addr = 0) :
    loki_find_ramdisk_address f sc hdr lh =
      if hdr.kernel_addr > 2 ^ 32 - 1 - 0x01ff8000 then
        .err ⟨.warn, .fileFormat, "Invalid kernel address"⟩
      else
        .ok (hdr.kernel_addr + 0x01ff8000) := by
  unfold loki_find_ramdisk_address
  rw [h]
  rw [if_neg (by simp)]
  by_cases hk : hdr.kernel_addr > 2 ^ 32 - 1 - 0x01ff8000
  · rw [if_pos hk, if_pos hk]
  · rw [if_neg hk, if_neg hk, Nat.mod_eq_of_lt (by omega)]

/-- Witness for C5: on a concrete header with `kernel_addr = 5`, the
recovered address is `0x01ff8005`. -/
theorem loki_find_ramdisk_address_jflte_fallback_witness :
    loki_find_ramdisk_address ⟨0, fun _ => 0⟩ [] ⟨5, 0, 0, 0, 0, 0⟩ ⟨0, 0, 0, 0⟩ =
      .ok 0x01ff8005 := by
  rw [loki_find_ramdisk_address_jflte_fallback ⟨0, fun _ => 0⟩ [] ⟨5, 0, 0, 0, 0, 0⟩
    ⟨0, 0, 0, 0⟩ rfl]
  decide

/-- C10: in the shellcode branch (`loki_hdr.ramdisk_addr ≠ 0`), a stream
whose first (hence only relevant) shellcode match begins at file offset 0 is
reported as the soft failure "Loki shellcode not found", because absence of a
match is detected by the recorded offset still being 0. -/
theorem loki_shellcode_match_at_zero_warns (f : FileData) (sc : List Nat)
    (hdr : AndroidHeader) (lh : LokiHeader) (h : lh.ramdisk_addr ≠ 0)
    (hm : firstMatchAtOrAfter f (sc.take (LOKI_SHELLCODE_SIZE - 9)) 0 = some 0) :
    loki_find_ramdisk_address f sc hdr lh =
      .err ⟨.warn, .fileFormat, "Loki shellcode not found"⟩ := by
  unfold loki_find_ramdisk_address
  rw [if_pos h, hm]
  rfl

/-- Witness for C10: a concrete 60-byte stream of `7`s matched against a
64-byte pattern of `7`s has its first match at offset 0 and is rejected. -/
theorem loki_shellcode_match_at_zero_warns_witness :
    loki_find_ramdisk_address ⟨60, fun _ => 7⟩ (List.replicate 64 7)
        ⟨0, 0, 0, 0, 0, 0⟩ ⟨0, 0, 0, 1⟩ =
      .err ⟨.warn, .fileFormat, "Loki shellcode not found"⟩ :=
  loki_shellcode_match_at_zero_warns ⟨60, fun _ => 7⟩ (List.replicate 64 7)
    ⟨0, 0, 0, 0, 0, 0⟩ ⟨0, 0, 0, 1⟩ (by decide) (by decide)

/-- C6 (amended): the aboot tail is `0x200` off the LG family and
`page_size` as a signed 32-bit quantity on it (equal to `page_size` whenever
`page_size < 2 ^ 31`, the hypothesis below); `aboot_offset` is end-of-file
minus that tail (an I/O failure when the tail exceeds the file); and when the
ramdisk offset does not exceed `aboot_offset` the reported size is
`(aboot_offset - ramdisk_offset)` truncated to 32 bits — the exact
difference whenever it fits — with no zero-byte stripping. -/
theorem loki_old_find_ramdisk_size_characterization (f : FileData)
    (is_lg : Nat → Bool) (hdr : AndroidHeader) (ramdisk_offset : Nat)
    (h32 : is_lg hdr.ramdisk_addr = true → hdr.page_size < 2 ^ 31) :
    loki_old_find_ramdisk_size f is_lg hdr ramdisk_offset =
      if f.size < (if is_lg hdr.ramdisk_addr then hdr.page_size else 0x200) then
        .err ⟨.failed, .ioError, "Failed to seek to end of file"⟩
      else if ramdisk_offset >
          f.size - (if is_lg hdr.ramdisk_addr then hdr.page_size else 0x200) then
        .err ⟨.failed, .internalError, "Ramdisk offset greater than aboot offset"⟩
      else
        .ok ((f.size - (if is_lg hdr.ramdisk_addr then hdr.page_size else 0x200)
          - ramdisk_offset) % 2 ^ 32) := by
  have htail : (if is_lg hdr.ramdisk_addr then hdr.page_size else 0x200) < 2 ^ 31 := by
    split
    · exact h32 (by assumption)
    · norm_num
  simp only [loki_old_find_ramdisk_size, toInt32_of_lt htail]
  generalize hT : (if is_lg hdr.ramdisk_addr then hdr.page_size else 0x200) = tail at *
  by_cases h1 : f.size < tail
  · rw [if_pos (by omega : (f.size : Int) - (tail : Int) < 0), if_pos h1]
  · have hnn : ¬ ((f.size : Int) - (tail : Int) < 0) := by omega
    rw [if_neg hnn, if_neg h1]
    have ht : ((f.size : Int) - (tail : Int)).toNat = f.size - tail := by omega
    rw [ht]

/-- Counterexample for C6: on a file longer than 4 GiB the reported size is
the 32-bit truncation, not the exact difference `aboot_offset -
ramdisk_offset`; and on the LG path with `page_size = 0x80000001` the
`int32_t` tail goes negative, so the function succeeds with an aboot offset
beyond end-of-file even though the claimed tail exceeds the 16-byte file. -/
theorem loki_old_find_ramdisk_size_truncation_cex :
    loki_old_find_ramdisk_size ⟨2 ^ 32 + 0x400, fun _ => 0⟩ (fun _ => false)
        ⟨0, 0, 0, 0, 0, 0⟩ 0 = .ok 0x200
    ∧ (2 ^ 32 + 0x400) - 0x200 - 0 ≠ 0x200
    ∧ loki_old_find_ramdisk_size ⟨16, fun _ => 0⟩ (fun _ => true)
        ⟨0, 0, 0, 0, 0x80000001, 0⟩ 0 = .ok 2147483663
    ∧ 16 < 0x80000001 := by
  refine ⟨by decide, by norm_num, by decide, by norm_num⟩

/-- Witness for C6 at a concrete in-range input: a 4096-byte file, non-LG
tail `0x200`, ramdisk offset 8. -/
theorem loki_old_find_ramdisk_size_characterization_witness :
    loki_old_find_ramdisk_size ⟨0x1000, fun _ => 0⟩ (fun _ => false)
        ⟨0, 0, 0, 0, 2048, 0⟩ 8 = .ok 0xdf8 := by
  rw [loki_old_find_ramdisk_size_characterization ⟨0x1000, fun _ => 0⟩ (fun _ => false)
    ⟨0, 0, 0, 0, 2048, 0⟩ 8 (fun h => absurd h (by decide))]
  decide

/-- C9 (amended): when the seek from end-of-file succeeds and the discovered
ramdisk offset exceeds the aboot offset, the reader records
`ERROR_INTERNAL_ERROR` and returns the FAILED outcome (not FormatError /
WARN). -/
theorem loki_old_ramdisk_size_internal_error (f : FileData) (is_lg : Nat → Bool)
    (hdr : AndroidHeader) (ramdisk_offset : Nat)
    (hseek : 0 ≤ (f.size : Int)
      - toInt32 (if is_lg hdr.ramdisk_addr then hdr.page_size else 0x200))
    (hgt : (ramdisk_offset : Int) > (f.size : Int)
      - toInt32 (if is_lg hdr.ramdisk_addr then hdr.page_size else 0x200)) :
    loki_old_find_ramdisk_size f is_lg hdr ramdisk_offset =
      .err ⟨.failed, .internalError, "Ramdisk offset greater than aboot offset"⟩ := by
  simp only [loki_old_find_ramdisk_size]
  generalize hT : toInt32 (if is_lg hdr.ramdisk_addr then hdr.page_size else 0x200)
    = t at *
  rw [if_neg (by omega), if_pos (by omega)]

/-- Counterexample for C9: at a concrete old-style input with the gzip offset
past the aboot offset, the outcome is FAILED with an internal error, which
differs from the claimed WARN / FormatError classification. -/
theorem loki_old_ramdisk_size_internal_error_cex :
    loki_old_find_ramdisk_size ⟨0x1000, fun _ => 0⟩ (fun _ => false)
        ⟨0, 0, 0, 0, 2048, 0⟩ 0xf00 =
      .err ⟨.failed, .internalError, "Ramdisk offset greater than aboot offset"⟩
    ∧ RetCode.failed ≠ RetCode.warn
    ∧ ErrKind.internalError ≠ ErrKind.fileFormat := by
  refine ⟨by decide, by decide, by decide⟩

/-- Witness for C9 at a concrete input: ramdisk offset `0x1000` against an
aboot offset of `0xe00`. -/
theorem loki_old_ramdisk_size_internal_error_witness :
    loki_old_find_ramdisk_size ⟨0x1000, fun _ => 0⟩ (fun _ => false)
        ⟨0, 0, 0, 0, 2048, 0⟩ 0x1000 =
      .err ⟨.failed, .internalError, "Ramdisk offset greater than aboot offset"⟩ :=
  loki_old_ramdisk_size_internal_error ⟨0x1000, fun _ => 0⟩ (fun _ => false)
    ⟨0, 0, 0, 0, 2048, 0⟩ 0x1000 (by decide) (by decide)

/-- Unfolding of the bidder when the current best bid is still beatable. -/
theorem loki_reader_bid_eq_low (f : FileData) (fah : Res (AndroidHeader × Nat))
    (ctx : LokiReaderCtx) (best_bid : Int)
    (hb : ¬ best_bid ≥ (((BOOT_MAGIC_SIZE + LOKI_MAGIC_SIZE) * 8 : Nat) : Int)) :
    loki_reader_bid f fah ctx best_bid =
      match find_loki_header f with
      | .ok (lh, off) =>
        match fah with
        | .ok (ah, hoff) =>
          ((((LOKI_MAGIC_SIZE * 8) + BOOT_MAGIC_SIZE * 8 : Nat) : Int),
            { ctx with
              hdr := ah, loki_hdr := lh, header_offset := hoff,
              loki_offset := off, have_header_offset := true, have_loki_offset := true })
        | .err e =>
          if e.code = .warn then
            (0, { ctx with
                  loki_hdr := lh, loki_offset := off, have_loki_offset := true })
          else
            (e.code.toInt,
              { ctx with
                loki_hdr := lh, loki_offset := off, have_loki_offset := true })
      | .err e => if e.code = .warn then (0, ctx) else (e.code.toInt, ctx) := by
  unfold loki_reader_bid
  rw [if_neg hb]

/-- C4: the bidder declines (WARN) without touching the stream or context
when the best bid already reaches `(BOOT_MAGIC_SIZE + LOKI_MAGIC_SIZE) * 8`;
below that, a soft miss of either magic yields a bid of exactly 0, both hits
yield exactly `LOKI_MAGIC_SIZE * 8 + BOOT_MAGIC_SIZE * 8`, and every
non-negative bid lies in `{0, LOKI_MAGIC_SIZE * 8,
(LOKI_MAGIC_SIZE + BOOT_MAGIC_SIZE) * 8}`. -/
theorem loki_reader_bid_scores (f : FileData) (fah : Res (AndroidHeader × Nat))
    (ctx : LokiReaderCtx) (best_bid : Int) :
    (best_bid ≥ (((BOOT_MAGIC_SIZE + LOKI_MAGIC_SIZE) * 8 : Nat) : Int) →
      loki_reader_bid f fah ctx best_bid = (RetCode.warn.toInt, ctx))
    ∧ (¬ best_bid ≥ (((BOOT_MAGIC_SIZE + LOKI_MAGIC_SIZE) * 8 : Nat) : Int) →
      (∀ e, find_loki_header f = .err e → e.code = .warn →
        (loki_reader_bid f fah ctx best_bid).1 = 0)
      ∧ (∀ x e, find_loki_header f = .ok x → fah = .err e → e.code = .warn →
        (loki_reader_bid f fah ctx best_bid).1 = 0)
      ∧ (∀ x y, find_loki_header f = .ok x → fah = .ok y →
        (loki_reader_bid f fah ctx best_bid).1 =
          ((LOKI_MAGIC_SIZE * 8 + BOOT_MAGIC_SIZE * 8 : Nat) : Int)))
    ∧ (0 ≤ (loki_reader_bid f fah ctx best_bid).1 →
      (loki_reader_bid f fah ctx best_bid).1 = 0
      ∨ (loki_reader_bid f fah ctx best_bid).1 = ((LOKI_MAGIC_SIZE * 8 : Nat) : Int)
      ∨ (loki_reader_bid f fah ctx best_bid).1 =
          (((LOKI_MAGIC_SIZE + BOOT_MAGIC_SIZE) * 8 : Nat) : Int)) := by
  refine ⟨fun hb => ?_, fun hb => ⟨fun e he hc => ?_, fun x e hx he hc => ?_,
    fun x y hx hy => ?_⟩, ?_⟩
  · unfold loki_reader_bid
    rw [if_pos hb]
  · rw [loki_reader_bid_eq_low f fah ctx best_bid hb, he]
    simp [hc]
  · obtain ⟨lh, off⟩ := x
    rw [loki_reader_bid_eq_low f fah ctx best_bid hb, hx, he]
    simp [hc]
  · obtain ⟨lh, off⟩ := x
    obtain ⟨ah, hoff⟩ := y
    rw [loki_reader_bid_eq_low f fah ctx best_bid hb, hx, hy]
  · intro hnn
    by_cases hb : best_bid ≥ (((BOOT_MAGIC_SIZE + LOKI_MAGIC_SIZE) * 8 : Nat) : Int)
    · exfalso
      have hw : loki_reader_bid f fah ctx best_bid = (RetCode.warn.toInt, ctx) := by
        unfold loki_reader_bid
        rw [if_pos hb]
      rw [hw] at hnn
      simp [RetCode.toInt] at hnn
    · rw [loki_reader_bid_eq_low f fah ctx best_bid hb] at hnn ⊢
      cases hloki : find_loki_header f with
      | ok x =>
        obtain ⟨lh, off⟩ := x
        cases hfah : fah with
        | ok y =>
          obtain ⟨ah, hoff⟩ := y
          right; right
          simp [LOKI_MAGIC_SIZE, BOOT_MAGIC_SIZE]
        | err e =>
          by_cases hc : e.code = .warn
          · left
            simp [hc]
          · simp only [if_neg hc] at hnn ⊢
            cases hcode : e.code with
            | ok => left; simp [hcode, RetCode.toInt]
            | warn => exact absurd hcode hc
            | failed => simp [hloki, hfah, hcode, RetCode.toInt] at hnn
            | fatal => simp [hloki, hfah, hcode, RetCode.toInt] at hnn
            | unsupported => simp [hloki, hfah, hcode, RetCode.toInt] at hnn
      | err e =>
        by_cases hc : e.code = .warn
        · left
          simp [hc]
        · simp only [if_neg hc] at hnn ⊢
          cases hcode : e.code with
          | ok => left; simp [hcode, RetCode.toInt]
          | warn => exact absurd hcode hc
          | failed => simp [hloki, hcode, RetCode.toInt] at hnn
          | fatal => simp [hloki, hcode, RetCode.toInt] at hnn
          | unsupported => simp [hloki, hcode, RetCode.toInt] at hnn

/-- Witness for C4: on a concrete Loki image with a successful Android
locator outcome and `best_bid = 0`, the bid is exactly
`LOKI_MAGIC_SIZE * 8 + BOOT_MAGIC_SIZE * 8`. -/
theorem loki_reader_bid_scores_witness :
    (loki_reader_bid lokiMagicFile (.ok (⟨0, 0, 0, 0, 2048, 0⟩, 0))
        initialLokiCtx 0).1 =
      ((LOKI_MAGIC_SIZE * 8 + BOOT_MAGIC_SIZE * 8 : Nat) : Int) :=
  ((loki_reader_bid_scores lokiMagicFile (.ok (⟨0, 0, 0, 0, 2048, 0⟩, 0))
      initialLokiCtx 0).2.1 (by decide)).2.2
    (⟨0, 0, 0, 0⟩, LOKI_MAGIC_OFFSET) (⟨0, 0, 0, 0, 2048, 0⟩, 0) (by decide) rfl

/-- C7: the forced-read path of `loki_reader_read_header` sets the
Loki-header-present flag while storing the locator's `0x400` offset into
`header_offset` instead of `loki_offset`, so the context's `loki_offset`
stays 0 and the invariant `loki_offset == 0x400` fails.  Evaluated on a
fresh context and a valid Loki image. -/
theorem loki_forced_read_loki_offset_unset :
    (loki_reader_read_header lokiMagicFile (.ok (⟨0, 0, 0, 0, 0, 0⟩, 0)) []
        (fun _ => false) initialLokiCtx).2.have_loki_offset = true
    ∧ (loki_reader_read_header lokiMagicFile (.ok (⟨0, 0, 0, 0, 0, 0⟩, 0)) []
        (fun _ => false) initialLokiCtx).2.loki_offset = 0
    ∧ (0 : Nat) ≠ LOKI_MAGIC_OFFSET := by
  refine ⟨by decide, by decide, by decide⟩

/-- C1: for every new-style image accepted by the reader (all three
discriminator fields nonzero, `page_size` nonzero, shellcode found at the
first match offset `m`), the reconstructed kernel size is
`loki_hdr.orig_kernel_size`, the reconstructed ramdisk size is
`loki_hdr.orig_ramdisk_size`, and the recovered ramdisk address is the
4-byte little-endian integer stored at `m + (LOKI_SHELLCODE_SIZE - 5)`,
i.e. at `m + 59`. -/
theorem loki_read_new_header_roundtrip (f : FileData) (sc : List Nat)
    (is_lg : Nat → Bool) (hdr : AndroidHeader) (lh : LokiHeader)
    (out : NewHeaderOut) (m : Nat)
    (h1 : lh.orig_kernel_size ≠ 0) (h2 : lh.orig_ramdisk_size ≠ 0)
    (h3 : lh.ramdisk_addr ≠ 0)
    (hm : firstMatchAtOrAfter f (sc.take (LOKI_SHELLCODE_SIZE - 9)) 0 = some m)
    (hok : loki_read_new_header f sc is_lg hdr lh = .ok out) :
    out.kernel_size = lh.orig_kernel_size
    ∧ out.ramdisk_size = lh.orig_ramdisk_size
    ∧ readLe32 f (m + (LOKI_SHELLCODE_SIZE - 5)) = some out.header.ramdisk_addr := by
  by_cases hp : hdr.page_size = 0
  · rw [show loki_read_new_header f sc is_lg hdr lh
        = .err ⟨.warn, .fileFormat, "Page size cannot be 0"⟩ by
      unfold loki_read_new_header; rw [if_pos hp]] at hok
    exact Res.noConfusion hok
  by_cases hm0 : m = 0
  · simp only [loki_read_new_header, if_neg hp, loki_find_ramdisk_address,
      if_pos h3, hm, Option.getD_some, if_pos hm0] at hok
    exact Res.noConfusion hok
  · simp only [loki_read_new_header, if_neg hp, loki_find_ramdisk_address,
      if_pos h3, hm, Option.getD_some, if_neg hm0] at hok
    cases hr : readLe32 f (m + (LOKI_SHELLCODE_SIZE - 5)) with
    | none =>
      rw [hr] at hok
      simp at hok
    | some v =>
      rw [hr] at hok
      simp only [] at hok
      injection hok with h
      subst h
      exact ⟨rfl, rfl, rfl⟩

/-- Witness for C1 on the sample new-style image: first match at 1, address
slot at 60 holding `0xaa`. -/
theorem loki_read_new_header_roundtrip_witness :
    sampleNewOut.kernel_size = sampleNewLoki.orig_kernel_size
    ∧ sampleNewOut.ramdisk_size = sampleNewLoki.orig_ramdisk_size
    ∧ readLe32 sampleNewFile (1 + (LOKI_SHELLCODE_SIZE - 5)) =
        some sampleNewOut.header.ramdisk_addr :=
  loki_read_new_header_roundtrip sampleNewFile sampleShellcode (fun _ => false)
    sampleNewAndroid sampleNewLoki sampleNewOut 1
    (by decide) (by decide) (by decide) (by decide) (by decide)

/-- A `false` boolean from a refuted `true`. -/
theorem bool_ne_true_eq_false {b : Bool} (h : ¬ b = true) : b = false := by
  cases b
  · rfl
  · exact absurd rfl h

/-- `Nat` boolean equality refuted. -/
theorem nat_beq_eq_false {a b : Nat} (h : a ≠ b) : (a == b) = false := by
  cases hq : a == b
  · rfl
  · exact absurd (eq_of_beq hq) h

/-- Boolean equality on `Option Nat`: `none` against `some`. -/
theorem none_beq_some (b : Nat) : ((none : Option Nat) == some b) = false := rfl

/-- Boolean equality on `Option Nat`: `some` against `some`. -/
theorem some_beq_some (a b : Nat) : ((some a : Option Nat) == some b) = (a == b) := rfl

/-- Every gzip match offset leaves room for the three magic bytes. -/
theorem searchOffsets_gzip_bound (f : FileData) (start : Nat) :
    ∀ o ∈ searchOffsets f GZIP_DEFLATE_MAGIC start, o + 3 ≤ f.size := by
  intro o ho
  have h := matchAt_size_le (mem_searchOffsets.mp ho).2.2
  simpa [GZIP_DEFLATE_MAGIC] using h

/-- `gzip_scan` on the empty match list. -/
theorem gzip_scan_nil (f : FileData) (r : GzipSearchState) : gzip_scan f [] r = r := rfl

/-- `gzip_scan` stops early once both flavours are recorded. -/
theorem gzip_scan_cons_stop (f : FileData) (o : Nat) (rest : List Nat)
    (r : GzipSearchState) (hs : (r.have_flag0 && r.have_flag8) = true) :
    gzip_scan f (o :: rest) r = r := by
  rw [gzip_scan, if_pos hs]

/-- `gzip_scan` stops when the flags byte is past end of file. -/
theorem gzip_scan_cons_eof (f : FileData) (o : Nat) (rest : List Nat)
    (r : GzipSearchState) (hs : (r.have_flag0 && r.have_flag8) = false)
    (hb : readByte f (o + 3) = none) :
    gzip_scan f (o :: rest) r = r := by
  rw [gzip_scan, if_neg (by simp [hs])]
  simp only [hb]

/-- `gzip_scan` records a first flags-`0x00` candidate. -/
theorem gzip_scan_cons_flag0 (f : FileData) (o : Nat) (rest : List Nat)
    (r : GzipSearchState) (flags : Nat)
    (hs : (r.have_flag0 && r.have_flag8) = false)
    (hb : readByte f (o + 3) = some flags)
    (hg : (!r.have_flag0 && flags == 0x00) = true) :
    gzip_scan f (o :: rest) r =
      gzip_scan f rest ⟨true, r.have_flag8, o, r.flag8_offset⟩ := by
  rw [gzip_scan, if_neg (by simp [hs])]
  simp only [hb]
  rw [if_pos hg]

/-- `gzip_scan` records a first flags-`0x08` candidate. -/
theorem gzip_scan_cons_flag8 (f : FileData) (o : Nat) (rest : List Nat)
    (r : GzipSearchState) (flags : Nat)
    (hs : (r.have_flag0 && r.have_flag8) = false)
    (hb : readByte f (o + 3) = some flags)
    (hg1 : (!r.have_flag0 && flags == 0x00) = false)
    (hg2 : (!r.have_flag8 && flags == 0x08) = true) :
    gzip_scan f (o :: rest) r =
      gzip_scan f rest ⟨r.have_flag0, true, r.flag0_offset, o⟩ := by
  rw [gzip_scan, if_neg (by simp [hs])]
  simp only [hb]
  rw [if_neg (by simp [hg1]), if_pos hg2]

/-- `gzip_scan` skips a match it does not record. -/
theorem gzip_scan_cons_skip (f : FileData) (o : Nat) (rest : List Nat)
    (r : GzipSearchState) (flags : Nat)
    (hs : (r.have_flag0 && r.have_flag8) = false)
    (hb : readByte f (o + 3) = some flags)
    (hg1 : (!r.have_flag0 && flags == 0x00) = false)
    (hg2 : (!r.have_flag8 && flags == 0x08) = false) :
    gzip_scan f (o :: rest) r = gzip_scan f rest r := by
  rw [gzip_scan, if_neg (by simp [hs])]
  simp only [hb]
  rw [if_neg (by simp [hg1]), if_neg (by simp [hg2])]

/-- Once the flags-`0x08` candidate is recorded it is never overwritten. -/
theorem gzip_scan_flag8_preserved (f : FileData) :
    ∀ (l : List Nat) (r : GzipSearchState), r.have_flag8 = true →
      (gzip_scan f l r).have_flag8 = true
      ∧ (gzip_scan f l r).flag8_offset = r.flag8_offset := by
  intro l
  induction l with
  | nil => intro r h; rw [gzip_scan_nil]; exact ⟨h, rfl⟩
  | cons o rest ih =>
    intro r h
    by_cases hs : (r.have_flag0 && r.have_flag8) = true
    · rw [gzip_scan_cons_stop f o rest r hs]; exact ⟨h, rfl⟩
    · have hs' := bool_ne_true_eq_false hs
      cases hb : readByte f (o + 3) with
      | none => rw [gzip_scan_cons_eof f o rest r hs' hb]; exact ⟨h, rfl⟩
      | some flags =>
        by_cases hg1 : (!r.have_flag0 && flags == 0x00) = true
        · rw [gzip_scan_cons_flag0 f o rest r flags hs' hb hg1]
          exact ih ⟨true, r.have_flag8, o, r.flag8_offset⟩ h
        · have hg1' := bool_ne_true_eq_false hg1
          have hg2' : (!r.have_flag8 && flags == 0x08) = false := by
            rw [h]; rfl
          rw [gzip_scan_cons_skip f o rest r flags hs' hb hg1' hg2']
          exact ih r h

/-- Over a strictly increasing list of in-file match offsets whose unique
flags-`0x08` candidate is `B`, the scan (started before any `0x08` record)
ends with `B` recorded. -/
theorem gzip_scan_records_flag8 (f : FileData) :
    ∀ (l : List Nat) (r : GzipSearchState) (B : Nat),
      (∀ o ∈ l, o + 3 ≤ f.size) → l.Pairwise (· < ·) → r.have_flag8 = false →
      l.filter (fun o => readByte f (o + 3) == some 0x08) = [B] →
      (gzip_scan f l r).have_flag8 = true
      ∧ (gzip_scan f l r).flag8_offset = B := by
  intro l
  induction l with
  | nil => intro r B _ _ _ hfil; exact absurd hfil (by simp)
  | cons o rest ih =>
    intro r B hbound hpw h8 hfil
    have hs' : (r.have_flag0 && r.have_flag8) = false := by
      rw [h8, Bool.and_false]
    cases hb : readByte f (o + 3) with
    | none =>
      exfalso
      have hsz : f.size ≤ o + 3 := by
        by_contra hlt
        push_neg at hlt
        simp [readByte, hlt] at hb
      rw [List.filter_cons] at hfil
      rw [hb] at hfil
      simp only [none_beq_some] at hfil
      rw [if_neg (by simp)] at hfil
      have hBmem : B ∈ rest := by
        have : B ∈ List.filter (fun o => readByte f (o + 3) == some 0x08) rest := by
          rw [hfil]; exact List.mem_singleton_self B
        exact List.mem_of_mem_filter this
      have hBbound := hbound B (List.mem_cons_of_mem o hBmem)
      have hoB := (List.pairwise_cons.mp hpw).1 B hBmem
      omega
    | some flags =>
      rw [List.filter_cons] at hfil
      rw [hb] at hfil
      simp only [some_beq_some] at hfil
      by_cases hf8 : flags = 0x08
      · rw [if_pos (by rw [hf8]; simp)] at hfil
        have hoB : o = B ∧ List.filter (fun o => readByte f (o + 3) == some 0x08) rest
            = [] := by
          simpa using hfil
        have hg1 : (!r.have_flag0 && flags == 0x00) = false := by
          rw [show (flags == 0x00) = false from nat_beq_eq_false (by rw [hf8]; norm_num),
            Bool.and_false]
        have hg2 : (!r.have_flag8 && flags == 0x08) = true := by
          rw [h8, show (flags == 0x08) = true from by rw [hf8]; simp]
          rfl
        rw [gzip_scan_cons_flag8 f o rest r flags hs' hb hg1 hg2]
        have hpres := gzip_scan_flag8_preserved f rest
          ⟨r.have_flag0, true, r.flag0_offset, o⟩ rfl
        exact ⟨hpres.1, by rw [hpres.2, hoB.1]⟩
      · rw [if_neg (by simp [nat_beq_eq_false hf8])] at hfil
        have hrest : ∀ x ∈ rest, x + 3 ≤ f.size :=
          fun x hx => hbound x (List.mem_cons_of_mem o hx)
        have hpw' := (List.pairwise_cons.mp hpw).2
        by_cases hg1 : (!r.have_flag0 && flags == 0x00) = true
        · rw [gzip_scan_cons_flag0 f o rest r flags hs' hb hg1]
          exact ih ⟨true, r.have_flag8, o, r.flag8_offset⟩ B hrest hpw' h8 hfil
        · have hg1' := bool_ne_true_eq_false hg1
          have hg2' : (!r.have_flag8 && flags == 0x08) = false := by
            rw [nat_beq_eq_false hf8, Bool.and_false]
          rw [gzip_scan_cons_skip f o rest r flags hs' hb hg1' hg2']
          exact ih r B hrest hpw' h8 hfil

/-- If the scan ends with a flags-`0x08` record, that offset either was
already recorded or is a scanned match whose flags byte reads `0x08`. -/
theorem gzip_scan_flag8_sound (f : FileData) :
    ∀ (l : List Nat) (r : GzipSearchState),
      (gzip_scan f l r).have_flag8 = true →
      (r.have_flag8 = true ∧ (gzip_scan f l r).flag8_offset = r.flag8_offset)
      ∨ ((gzip_scan f l r).flag8_offset ∈ l
         ∧ readByte f ((gzip_scan f l r).flag8_offset + 3) = some 0x08) := by
  intro l
  induction l with
  | nil => intro r h; exact .inl ⟨h, rfl⟩
  | cons o rest ih =>
    intro r h
    by_cases hs : (r.have_flag0 && r.have_flag8) = true
    · rw [gzip_scan_cons_stop f o rest r hs] at h ⊢
      exact .inl ⟨h, rfl⟩
    · have hs' := bool_ne_true_eq_false hs
      cases hb : readByte f (o + 3) with
      | none =>
        rw [gzip_scan_cons_eof f o rest r hs' hb] at h ⊢
        exact .inl ⟨h, rfl⟩
      | some flags =>
        by_cases hg1 : (!r.have_flag0 && flags == 0x00) = true
        · rw [gzip_scan_cons_flag0 f o rest r flags hs' hb hg1] at h ⊢
          rcases ih ⟨true, r.have_flag8, o, r.flag8_offset⟩ h with ⟨h8, heq⟩ | ⟨hmem, hread⟩
          · exact .inl ⟨h8, heq⟩
          · exact .inr ⟨List.mem_cons_of_mem o hmem, hread⟩
        · have hg1' := bool_ne_true_eq_false hg1
          by_cases hg2 : (!r.have_flag8 && flags == 0x08) = true
          · rw [gzip_scan_cons_flag8 f o rest r flags hs' hb hg1' hg2] at h ⊢
            have hflags : flags = 0x08 :=
              eq_of_beq (Bool.and_eq_true .. ▸ hg2).2
            rcases ih ⟨r.have_flag0, true, r.flag0_offset, o⟩ h with ⟨_, heq⟩ | hmr
            · refine .inr ⟨?_, ?_⟩
              · rw [heq]; exact List.mem_cons_self o rest
              · rw [heq, hb, hflags]
            · exact .inr ⟨List.mem_cons_of_mem o hmr.1, hmr.2⟩
          · have hg2' := bool_ne_true_eq_false hg2
            rw [gzip_scan_cons_skip f o rest r flags hs' hb hg1' hg2'] at h ⊢
            rcases ih r h with ⟨h8, heq⟩ | ⟨hmem, hread⟩
            · exact .inl ⟨h8, heq⟩
            · exact .inr ⟨List.mem_cons_of_mem o hmem, hread⟩

/-- If the scan ends with a flags-`0x00` record, that offset either was
already recorded or is a scanned match whose flags byte reads `0x00`. -/
theorem gzip_scan_flag0_sound (f : FileData) :
    ∀ (l : List Nat) (r : GzipSearchState),
      (gzip_scan f l r).have_flag0 = true →
      (r.have_flag0 = true ∧ (gzip_scan f l r).flag0_offset = r.flag0_offset)
      ∨ ((gzip_scan f l r).flag0_offset ∈ l
         ∧ readByte f ((gzip_scan f l r).flag0_offset + 3) = some 0x00) := by
  intro l
  induction l with
  | nil => intro r h; exact .inl ⟨h, rfl⟩
  | cons o rest ih =>
    intro r h
    by_cases hs : (r.have_flag0 && r.have_flag8) = true
    · rw [gzip_scan_cons_stop f o rest r hs] at h ⊢
      exact .inl ⟨h, rfl⟩
    · have hs' := bool_ne_true_eq_false hs
      cases hb : readByte f (o + 3) with
      | none =>
        rw [gzip_scan_cons_eof f o rest r hs' hb] at h ⊢
        exact .inl ⟨h, rfl⟩
      | some flags =>
        by_cases hg1 : (!r.have_flag0 && flags == 0x00) = true
        · rw [gzip_scan_cons_flag0 f o rest r flags hs' hb hg1] at h ⊢
          have hflags : flags = 0x00 :=
            eq_of_beq (Bool.and_eq_true .. ▸ hg1).2
          rcases ih ⟨true, r.have_flag8, o, r.flag8_offset⟩ h with ⟨_, heq⟩ | hmr
          · refine .inr ⟨?_, ?_⟩
            · rw [heq]; exact List.mem_cons_self o rest
            · rw [heq, hb, hflags]
          · exact .inr ⟨List.mem_cons_of_mem o hmr.1, hmr.2⟩
        · have hg1' := bool_ne_true_eq_false hg1
          by_cases hg2 : (!r.have_flag8 && flags == 0x08) = true
          · rw [gzip_scan_cons_flag8 f o rest r flags hs' hb hg1' hg2] at h ⊢
            rcases ih ⟨r.have_flag0, true, r.flag0_offset, o⟩ h with ⟨h0, heq⟩ | ⟨hmem, hread⟩
            · exact .inl ⟨h0, heq⟩
            · exact .inr ⟨List.mem_cons_of_mem o hmem, hread⟩
          · have hg2' := bool_ne_true_eq_false hg2
            rw [gzip_scan_cons_skip f o rest r flags hs' hb hg1' hg2'] at h ⊢
            rcases ih r h with ⟨h0, heq⟩ | ⟨hmem, hread⟩
            · exact .inl ⟨h0, heq⟩
            · exact .inr ⟨List.mem_cons_of_mem o hmem, hread⟩

/-- With no candidate of either flavour among the matches, the scan leaves
its accumulator untouched. -/
theorem gzip_scan_no_candidates (f : FileData) :
    ∀ (l : List Nat) (r : GzipSearchState),
      (∀ o ∈ l, (readByte f (o + 3) == some 0x00) = false) →
      (∀ o ∈ l, (readByte f (o + 3) == some 0x08) = false) →
      gzip_scan f l r = r := by
  intro l
  induction l with
  | nil => intro r _ _; rfl
  | cons o rest ih =>
    intro r h0 h8
    by_cases hs : (r.have_flag0 && r.have_flag8) = true
    · exact gzip_scan_cons_stop f o rest r hs
    · have hs' := bool_ne_true_eq_false hs
      cases hb : readByte f (o + 3) with
      | none => exact gzip_scan_cons_eof f o rest r hs' hb
      | some flags =>
        have hc0 : (flags == 0x00) = false := by
          have := h0 o (List.mem_cons_self o rest)
          rw [hb, some_beq_some] at this
          exact this
        have hc8 : (flags == 0x08) = false := by
          have := h8 o (List.mem_cons_self o rest)
          rw [hb, some_beq_some] at this
          exact this
        rw [gzip_scan_cons_skip f o rest r flags hs' hb
          (by rw [hc0, Bool.and_false]) (by rw [hc8, Bool.and_false])]
        exact ih r (fun x hx => h0 x (List.mem_cons_of_mem o hx))
          (fun x hx => h8 x (List.mem_cons_of_mem o hx))

/-- A gzip offset reported with `RET_OK` is one of the match offsets at or
after the requested start. -/
theorem loki_old_find_gzip_offset_mem (f : FileData) (start o : Nat)
    (h : loki_old_find_gzip_offset f start = .ok o) :
    o ∈ searchOffsets f GZIP_DEFLATE_MAGIC start := by
  simp only [loki_old_find_gzip_offset] at h
  by_cases h8 : (gzip_scan f (searchOffsets f GZIP_DEFLATE_MAGIC start)
      initGzipState).have_flag8 = true
  · rw [if_pos h8] at h
    injection h with h'
    rcases gzip_scan_flag8_sound f (searchOffsets f GZIP_DEFLATE_MAGIC start)
        initGzipState h8 with ⟨hinit, _⟩ | ⟨hmem, _⟩
    · simp [initGzipState] at hinit
    · rw [← h']; exact hmem
  · rw [if_neg h8] at h
    by_cases h0 : (gzip_scan f (searchOffsets f GZIP_DEFLATE_MAGIC start)
        initGzipState).have_flag0 = true
    · rw [if_pos h0] at h
      injection h with h'
      rcases gzip_scan_flag0_sound f (searchOffsets f GZIP_DEFLATE_MAGIC start)
          initGzipState h0 with ⟨hinit, _⟩ | ⟨hmem, _⟩
      · simp [initGzipState] at hinit
      · rw [← h']; exact hmem
    · rw [if_neg h0] at h
      exact Res.noConfusion h

/-- C3: if the stream has exactly one gzip header with flags `0x00` (at `A`)
and exactly one with flags `0x08` (at `B`) at or after the start offset, the
finder returns `B` regardless of the order of `A` and `B`; any offset it
returns is a match whose flags byte is `0x00` or `0x08`; and with no
candidate of either flavour it reports the soft WARN failure. -/
theorem loki_old_find_gzip_offset_preference (f : FileData) (start A B : Nat) :
    ((gzipCandidates f start 0x00 = [A] ∧ gzipCandidates f start 0x08 = [B]) →
      loki_old_find_gzip_offset f start = .ok B)
    ∧ (∀ o, loki_old_find_gzip_offset f start = .ok o →
      o ∈ searchOffsets f GZIP_DEFLATE_MAGIC start
      ∧ (readByte f (o + 3) = some 0x00 ∨ readByte f (o + 3) = some 0x08))
    ∧ (gzipCandidates f start 0x00 = [] → gzipCandidates f start 0x08 = [] →
      loki_old_find_gzip_offset f start =
        .err ⟨.warn, .fileFormat, "No gzip headers found"⟩) := by
  refine ⟨?_, ?_, ?_⟩
  · rintro ⟨hA, hB⟩
    have h8 := gzip_scan_records_flag8 f (searchOffsets f GZIP_DEFLATE_MAGIC start)
      initGzipState B (searchOffsets_gzip_bound f start)
      (searchOffsets_pairwise f GZIP_DEFLATE_MAGIC start) rfl hB
    simp only [loki_old_find_gzip_offset]
    rw [if_pos h8.1, h8.2]
  · intro o hok
    refine ⟨loki_old_find_gzip_offset_mem f start o hok, ?_⟩
    simp only [loki_old_find_gzip_offset] at hok
    by_cases h8 : (gzip_scan f (searchOffsets f GZIP_DEFLATE_MAGIC start)
        initGzipState).have_flag8 = true
    · rw [if_pos h8] at hok
      injection hok with h'
      rcases gzip_scan_flag8_sound f (searchOffsets f GZIP_DEFLATE_MAGIC start)
          initGzipState h8 with ⟨hinit, _⟩ | ⟨_, hread⟩
      · simp [initGzipState] at hinit
      · right; rw [← h']; exact hread
    · rw [if_neg h8] at hok
      by_cases h0 : (gzip_scan f (searchOffsets f GZIP_DEFLATE_MAGIC start)
          initGzipState).have_flag0 = true
      · rw [if_pos h0] at hok
        injection hok with h'
        rcases gzip_scan_flag0_sound f (searchOffsets f GZIP_DEFLATE_MAGIC start)
            initGzipState h0 with ⟨hinit, _⟩ | ⟨_, hread⟩
        · simp [initGzipState] at hinit
        · left; rw [← h']; exact hread
      · rw [if_neg h0] at hok
        exact Res.noConfusion hok
  · intro h0 h8
    have hcand0 := List.filter_eq_nil_iff.mp h0
    have hcand8 := List.filter_eq_nil_iff.mp h8
    have hz := gzip_scan_no_candidates f (searchOffsets f GZIP_DEFLATE_MAGIC start)
      initGzipState (fun o ho => bool_ne_true_eq_false (hcand0 o ho))
      (fun o ho => bool_ne_true_eq_false (hcand8 o ho))
    simp only [loki_old_find_gzip_offset, hz]
    rfl

/-- Witness for C3 on the sample stream: flags-`0x00` header at 4,
flags-`0x08` header at 20; the finder picks 20. -/
theorem loki_old_find_gzip_offset_preference_witness :
    loki_old_find_gzip_offset sampleGzipFile 0 = .ok 20 :=
  (loki_old_find_gzip_offset_preference sampleGzipFile 0 4 20).1
    ⟨by decide, by decide⟩

/-- C8 (amended): segment offsets produced by the new-image reconstructor
are monotonically non-decreasing in the order KERNEL, RAMDISK, DEVICE_TREE,
with the ramdisk offset at least kernel offset plus kernel size; the
old-image reconstructor guarantees the same bound provided
`page_size + kernel_size + padding` does not wrap the 32-bit start offset of
the gzip search. -/
theorem loki_segment_offsets_monotone_amended :
    (∀ (f : FileData) (sc : List Nat) (is_lg : Nat → Bool) (hdr : AndroidHeader)
        (lh : LokiHeader) (out : NewHeaderOut),
      loki_read_new_header f sc is_lg hdr lh = .ok out →
      out.kernel_offset ≤ out.ramdisk_offset
      ∧ out.ramdisk_offset ≤ out.dt_offset
      ∧ out.kernel_offset + out.kernel_size ≤ out.ramdisk_offset)
    ∧ (∀ (f : FileData) (sc : List Nat) (is_lg : Nat → Bool) (hdr : AndroidHeader)
        (lh : LokiHeader) (out : OldHeaderOut),
      loki_read_old_header f sc is_lg hdr lh = .ok out →
      hdr.page_size + out.kernel_size
        + align_page_size out.kernel_size hdr.page_size < 2 ^ 32 →
      out.kernel_offset ≤ out.ramdisk_offset
      ∧ out.kernel_offset + out.kernel_size ≤ out.ramdisk_offset) := by
  constructor
  · intro f sc is_lg hdr lh out hok
    by_cases hp : hdr.page_size = 0
    · rw [show loki_read_new_header f sc is_lg hdr lh
          = .err ⟨.warn, .fileFormat, "Page size cannot be 0"⟩ by
        unfold loki_read_new_header; rw [if_pos hp]] at hok
      exact Res.noConfusion hok
    · simp only [loki_read_new_header, if_neg hp] at hok
      cases hra : loki_find_ramdisk_address f sc hdr lh with
      | err e => simp only [hra] at hok; exact Res.noConfusion hok
      | ok a =>
        simp only [hra] at hok
        injection hok with h
        subst h
        dsimp only
        refine ⟨by omega, ?_, by omega⟩
        split
        · omega
        · omega
  · intro f sc is_lg hdr lh out hok hw
    by_cases hp : hdr.page_size = 0
    · rw [show loki_read_old_header f sc is_lg hdr lh
          = .err ⟨.warn, .fileFormat, "Page size cannot be 0"⟩ by
        unfold loki_read_old_header; rw [if_pos hp]] at hok
      exact Res.noConfusion hok
    · simp only [loki_read_old_header, if_neg hp] at hok
      cases hks : find_linux_kernel_size f hdr.page_size with
      | err e => simp only [hks] at hok; exact Res.noConfusion hok
      | ok ks =>
        simp only [hks] at hok
        cases hg : loki_old_find_gzip_offset f
            (((hdr.page_size + ks) % 2 ^ 32
              + align_page_size ks hdr.page_size) % 2 ^ 32) with
        | err e => simp only [hg] at hok; exact Res.noConfusion hok
        | ok g =>
          simp only [hg] at hok
          cases hrs : loki_old_find_ramdisk_size f is_lg hdr (g % 2 ^ 32) with
          | err e => simp only [hrs] at hok; exact Res.noConfusion hok
          | ok rs =>
            simp only [hrs] at hok
            cases hra : loki_find_ramdisk_address f sc hdr lh with
            | err e => simp only [hra] at hok; exact Res.noConfusion hok
            | ok ra =>
              simp only [hra] at hok
              injection hok with h
              subst h
              dsimp only at hw ⊢
              have hmem := loki_old_find_gzip_offset_mem f _ g hg
              have hstart := (mem_searchOffsets.mp hmem).2.1
              have hs1 : (hdr.page_size + ks) % 2 ^ 32 = hdr.page_size + ks :=
                Nat.mod_eq_of_lt (by omega)
              rw [hs1] at hstart
              have hs2 : (hdr.page_size + ks + align_page_size ks hdr.page_size) % 2 ^ 32
                  = hdr.page_size + ks + align_page_size ks hdr.page_size :=
                Nat.mod_eq_of_lt (by omega)
              rw [hs2] at hstart
              exact ⟨by omega, by omega⟩

/-- Counterexample for C8: on `cexOldFile` the zImage size field reads
`0xffffffff`, the `uint32_t` start-offset computation wraps to 4, the gzip
header at offset 8 is accepted, and the resulting ramdisk offset 8 lies far
below kernel offset + kernel size. -/
theorem loki_old_header_nonmonotone_cex :
    loki_read_old_header cexOldFile [] (fun _ => true) cexOldAndroid ⟨0, 0, 0, 0⟩ =
      .ok cexOldOut
    ∧ cexOldOut.ramdisk_offset < cexOldOut.kernel_offset + cexOldOut.kernel_size := by
  refine ⟨by decide, by decide⟩

/-- Witness for C8 at concrete inputs: the sample new-style image and the
well-behaved sample old-style image. -/
theorem loki_segment_offsets_monotone_amended_witness :
    (sampleNewOut.kernel_offset ≤ sampleNewOut.ramdisk_offset
     ∧ sampleNewOut.ramdisk_offset ≤ sampleNewOut.dt_offset
     ∧ sampleNewOut.kernel_offset + sampleNewOut.kernel_size ≤ sampleNewOut.ramdisk_offset)
    ∧ (sampleOldOut.kernel_offset ≤ sampleOldOut.ramdisk_offset
     ∧ sampleOldOut.kernel_offset + sampleOldOut.kernel_size ≤ sampleOldOut.ramdisk_offset) :=
  ⟨loki_segment_offsets_monotone_amended.1 sampleNewFile sampleShellcode (fun _ => false)
      sampleNewAndroid sampleNewLoki sampleNewOut (by decide),
   loki_segment_offsets_monotone_amended.2 sampleOldFile [] (fun _ => true)
      ⟨0, 0, 0, 0, 4, 0⟩ ⟨0, 0, 0, 0⟩ sampleOldOut (by decide) (by decide)⟩

/-- When both locator flags are already set (a bid ran), `read_header` goes
straight to the three-field dispatch and the segment install. -/
theorem loki_reader_read_header_of_flags (f : FileData)
    (fah : Res (AndroidHeader × Nat)) (sc : List Nat) (is_lg : Nat → Bool)
    (ctx : LokiReaderCtx) (hl : ctx.have_loki_offset = true)
    (hh : ctx.have_header_offset = true) :
    loki_reader_read_header f fah sc is_lg ctx =
      match (if ctx.loki_hdr.orig_kernel_size ≠ 0 ∧ ctx.loki_hdr.orig_ramdisk_size ≠ 0
          ∧ ctx.loki_hdr.ramdisk_addr ≠ 0 then
            loki_read_new_header f sc is_lg ctx.hdr ctx.loki_hdr
          else
            oldAsCommon (loki_read_old_header f sc is_lg ctx.hdr ctx.loki_hdr)) with
      | .err e => (.err e, ctx)
      | .ok b => (.ok (b.header, lokiSegmentEntries ctx.hdr b),
          { ctx with entries := lokiSegmentEntries ctx.hdr b }) := by
  obtain ⟨hdr0, lh0, ho0, lo0, hho0, hlo0, es0⟩ := ctx
  dsimp only at hl hh
  subst hl
  subst hh
  rfl

/-- The new-image reconstructor reads only three of the Loki header fields. -/
theorem loki_read_new_header_congr (f : FileData) (sc : List Nat)
    (is_lg : Nat → Bool) (hdr : AndroidHeader) (lh lh' : LokiHeader)
    (h1 : lh'.orig_kernel_size = lh.orig_kernel_size)
    (h2 : lh'.orig_ramdisk_size = lh.orig_ramdisk_size)
    (h3 : lh'.ramdisk_addr = lh.ramdisk_addr) :
    loki_read_new_header f sc is_lg hdr lh' = loki_read_new_header f sc is_lg hdr lh := by
  obtain ⟨r, k, rd, ra⟩ := lh
  obtain ⟨r', k', rd', ra'⟩ := lh'
  dsimp only at h1 h2 h3
  subst h1
  subst h2
  subst h3
  rfl

/-- The old-image reconstructor reads only three of the Loki header fields. -/
theorem loki_read_old_header_congr (f : FileData) (sc : List Nat)
    (is_lg : Nat → Bool) (hdr : AndroidHeader) (lh lh' : LokiHeader)
    (h1 : lh'.orig_kernel_size = lh.orig_kernel_size)
    (h2 : lh'.orig_ramdisk_size = lh.orig_ramdisk_size)
    (h3 : lh'.ramdisk_addr = lh.ramdisk_addr) :
    loki_read_old_header f sc is_lg hdr lh' = loki_read_old_header f sc is_lg hdr lh := by
  obtain ⟨r, k, rd, ra⟩ := lh
  obtain ⟨r', k', rd', ra'⟩ := lh'
  dsimp only at h1 h2 h3
  subst h1
  subst h2
  subst h3
  rfl

/-- C2: with the locator work already done, `read_header` dispatches the
new-image reconstructor exactly when all of `orig_kernel_size`,
`orig_ramdisk_size` and `ramdisk_addr` are nonzero, dispatches the old-image
reconstructor exactly when at least one is zero, and its result depends on
the Loki header only through these three fields. -/
theorem loki_reader_read_header_dispatch (f : FileData)
    (fah : Res (AndroidHeader × Nat)) (sc : List Nat) (is_lg : Nat → Bool)
    (ctx : LokiReaderCtx) (hl : ctx.have_loki_offset = true)
    (hh : ctx.have_header_offset = true) :
    ((ctx.loki_hdr.orig_kernel_size ≠ 0 ∧ ctx.loki_hdr.orig_ramdisk_size ≠ 0
        ∧ ctx.loki_hdr.ramdisk_addr ≠ 0) →
      (loki_reader_read_header f fah sc is_lg ctx).1 =
        match loki_read_new_header f sc is_lg ctx.hdr ctx.loki_hdr with
        | .err e => .err e
        | .ok b => .ok (b.header, lokiSegmentEntries ctx.hdr b))
    ∧ ((ctx.loki_hdr.orig_kernel_size = 0 ∨ ctx.loki_hdr.orig_ramdisk_size = 0
        ∨ ctx.loki_hdr.ramdisk_addr = 0) →
      (loki_reader_read_header f fah sc is_lg ctx).1 =
        match oldAsCommon (loki_read_old_header f sc is_lg ctx.hdr ctx.loki_hdr) with
        | .err e => .err e
        | .ok b => .ok (b.header, lokiSegmentEntries ctx.hdr b))
    ∧ (∀ lh' : LokiHeader,
      lh'.orig_kernel_size = ctx.loki_hdr.orig_kernel_size →
      lh'.orig_ramdisk_size = ctx.loki_hdr.orig_ramdisk_size →
      lh'.ramdisk_addr = ctx.loki_hdr.ramdisk_addr →
      (loki_reader_read_header f fah sc is_lg { ctx with loki_hdr := lh' }).1 =
      (loki_reader_read_header f fah sc is_lg ctx).1) := by
  refine ⟨fun hcond => ?_, fun hz => ?_, fun lh' h1 h2 h3 => ?_⟩
  · rw [loki_reader_read_header_of_flags f fah sc is_lg ctx hl hh, if_pos hcond]
    cases loki_read_new_header f sc is_lg ctx.hdr ctx.loki_hdr <;> rfl
  · have hnc : ¬ (ctx.loki_hdr.orig_kernel_size ≠ 0
        ∧ ctx.loki_hdr.orig_ramdisk_size ≠ 0
        ∧ ctx.loki_hdr.ramdisk_addr ≠ 0) := by
      rcases hz with h | h | h <;> simp [h]
    rw [loki_reader_read_header_of_flags f fah sc is_lg ctx hl hh, if_neg hnc]
    cases oldAsCommon (loki_read_old_header f sc is_lg ctx.hdr ctx.loki_hdr) <;> rfl
  · have hl' : ({ ctx with loki_hdr := lh' } : LokiReaderCtx).have_loki_offset = true := hl
    have hh' : ({ ctx with loki_hdr := lh' } : LokiReaderCtx).have_header_offset = true := hh
    rw [loki_reader_read_header_of_flags f fah sc is_lg _ hl' hh',
      loki_reader_read_header_of_flags f fah sc is_lg ctx hl hh]
    have hHdr : ({ ctx with loki_hdr := lh' } : LokiReaderCtx).hdr = ctx.hdr := rfl
    have hLh : ({ ctx with loki_hdr := lh' } : LokiReaderCtx).loki_hdr = lh' := rfl
    rw [hHdr, hLh, h1, h2, h3,
      loki_read_new_header_congr f sc is_lg ctx.hdr ctx.loki_hdr lh' h1 h2 h3,
      loki_read_old_header_congr f sc is_lg ctx.hdr ctx.loki_hdr lh' h1 h2 h3]
    cases (if ctx.loki_hdr.orig_kernel_size ≠ 0 ∧ ctx.loki_hdr.orig_ramdisk_size ≠ 0
        ∧ ctx.loki_hdr.ramdisk_addr ≠ 0 then
          loki_read_new_header f sc is_lg ctx.hdr ctx.loki_hdr
        else
          oldAsCommon (loki_read_old_header f sc is_lg ctx.hdr ctx.loki_hdr)) <;> rfl

/-- Witness for C2: on the sample new-style context (all three discriminator
fields nonzero), `read_header` takes the new-image branch. -/
theorem loki_reader_read_header_dispatch_witness :
    (loki_reader_read_header sampleNewFile (.ok (sampleNewAndroid, 0))
        sampleShellcode (fun _ => false) sampleDispatchCtx).1 =
      match loki_read_new_header sampleNewFile sampleShellcode (fun _ => false)
          sampleDispatchCtx.hdr sampleDispatchCtx.loki_hdr with
      | .err e => .err e
      | .ok b => .ok (b.header, lokiSegmentEntries sampleDispatchCtx.hdr b) :=
  (loki_reader_read_header_dispatch sampleNewFile (.ok (sampleNewAndroid, 0))
      sampleShellcode (fun _ => false) sampleDispatchCtx rfl rfl).1
    (by refine ⟨by decide, by decide, by decide⟩)
